import Mathlib

/-!
Verification of the `node` repository (neural ODE adjoint engine).

The development shallowly embeds `src/node/core.py`, `src/node/base.py` and
`src/node/tfp_impl.py`.  Pure Python functions become Lean functions; Python
exceptions become `Except`; TensorFlow primitives (negation, zeros, the
vector-Jacobian-product of a gradient tape) are modelled as explicit
operation records, and for concrete claims an executable scalar autodiff
over a small expression language instantiates them.
-/

namespace Node

/-- Python runtime errors that the embedded code can raise. -/
inductive PyErr where
  | typeError
  | valueError
  | indexError
  | keyError
  | attributeError
deriving DecidableEq, Repr

/-- Result object returned by an ODE solver `forward` call in `core.py`:
`backward` reads `ode_result.phase_point` (line 85) and the dynamical node
function additionally reads `ode_result.time` (line 262). -/
structure SolverResult (σ : Type) where
  time : ℚ
  phase_point : σ
deriving DecidableEq, Repr

/-- The TensorFlow substrate operations used by `core.py`, modelled at their
interface (spec section 1 treats the tensor engine and its autodiff VJP
primitive as external collaborators):
`negate` is the `_negate` helper (`-1 * x`, lines 91-93),
`zeros_like` is `tf.zeros_like` (line 80), and
`gradient net t sources ct` is `g.gradient(output, sources, ct,
unconnected_gradients=zero)` for a tape that recorded `output = net t state`
(lines 60-69); `sources` is the list `[state] + variables`. -/
structure TFOps (α : Type) where
  negate : α → α
  zeros_like : α → α
  gradient : (ℚ → α → α) → ℚ → List α → α → List α

/-- Embedding of `aug_dynamics` (`core.py` lines 55-72).  The augmented phase
point is destructured as `state, adjoint, *_` (a Python `ValueError` if it has
fewer than two entries), the adjoint is negated, the base field is evaluated,
and the VJPs of the output with respect to `[state] + variables` at cotangent
`-adjoint` are appended after the output.  `variables` is `Option` because the
`grad_fn`s of `core.py` may pass Python `None` (line 193); `[state] + variables`
with `None` raises a `TypeError`. -/
def aug_dynamics (ops : TFOps α) (network : ℚ → α → α) (vars : Option (List α))
    (time : ℚ) (aug_phase_point : List α) : Except PyErr (List α) :=
  match aug_phase_point with
  | state :: adjoint :: _ =>
    match vars with
    | none => .error .typeError
    | some vs =>
      let neg_adjoint := ops.negate adjoint
      let output := network time state
      let vjps := ops.gradient network time (state :: vs) neg_adjoint
      .ok (output :: vjps)
  | _ => .error .valueError

/-- Embedding of the `backward` closure of `reverse_mode_derivative`
(`core.py` lines 76-88), abstracted over the solver-produced `forward`
operator.  It appends `tf.zeros_like(var)` for each variable to
`[final_state, final_loss_gradient]` (the Python loop at lines 78-81 raises
`TypeError` first when `variables` is `None`), calls `forward` with the time
arguments swapped (`forward(end_time, start_time, ...)`, lines 82-84), and
unpacks `ode_result.phase_point` as
`init_state, init_loss_gradient, *grad_loss_by_vars` (line 85, a `ValueError`
if the result holds fewer than two entries). -/
def backward_operator
    (forward : ℚ → ℚ → List α → Except PyErr (SolverResult (List α)))
    (zeros_like : α → α) (vars : Option (List α))
    (start_time end_time : ℚ) (final_state final_loss_gradient : α) :
    Except PyErr (α × α × List α) :=
  match vars with
  | none => .error .typeError
  | some vs =>
    let final_phase_point := final_state :: final_loss_gradient :: vs.map zeros_like
    match forward end_time start_time final_phase_point with
    | .error e => .error e
    | .ok ode_result =>
      match ode_result.phase_point with
      | init_state :: init_loss_gradient :: grad_loss_by_vars =>
        .ok (init_state, init_loss_gradient, grad_loss_by_vars)
      | _ => .error .valueError

/-- Embedding of `reverse_mode_derivative` (`core.py` lines 38-88):
`forward = ode_solver(aug_dynamics)` (line 74) composed with the `backward`
closure. -/
def reverse_mode_derivative
    (ode_solver : (ℚ → List α → Except PyErr (List α)) →
      ℚ → ℚ → List α → Except PyErr (SolverResult (List α)))
    (ops : TFOps α) (network : ℚ → α → α) (vars : Option (List α)) :
    ℚ → ℚ → α → α → Except PyErr (α × α × List α) :=
  backward_operator (ode_solver (aug_dynamics ops network vars))
    ops.zeros_like vars

/-- A `core.py` `ODESolver` object, modelled at its two call types: `call` is
its use on the base field over plain phase points (`forward = solver(fn)`,
line 139) and `callAug` its use on the augmented field over lists
(`forward = ode_solver(aug_dynamics)`, line 74).  In Python one polymorphic
object serves both. -/
structure ODESolverM (α : Type) where
  call : (ℚ → α → α) → ℚ → ℚ → α → SolverResult α
  callAug : (ℚ → List α → Except PyErr (List α)) →
    ℚ → ℚ → List α → Except PyErr (SolverResult (List α))

/-- The pair returned by `custom_gradient_fn` (`core.py` line 199):
the forward output `y` and the registered gradient rule `grad_fn`.
`tf.custom_gradient` is the external registration mechanism; registering this
pair is exactly what makes the engine call `grad_fn` instead of
differentiating the forward internals.  `grad_fn` receives the upstream
cotangent and the `variables` keyword (Python `None` when the engine does not
pass it, line 193). -/
structure NodeFnOutput (α : Type) where
  y : α
  grad_fn : α → Option (List α) → Except PyErr (List α × List α)

/-- Embedding of `get_node_function` (`core.py` lines 113-203) at a fixed call
`(t0, t1, x0)`: runs `forward = solver(fn)` on `(t0, t1, x0)`, takes
`y = ode_result.phase_point` (lines 179-180), and registers the gradient rule
of lines 184-197, which rebuilds `backward = reverse_mode_derivative(solver,
fn, variables)` and returns `([grad_by_x], grad_by_vars)`.  The
flatten/pack-sequence plumbing at the registration boundary (lines 177, 186,
201) is the identity on the tree it transports; it is modelled and verified
separately by the `Nest` development below. -/
def get_node_function (solver : ODESolverM α) (ops : TFOps α) (fn : ℚ → α → α)
    (t0 t1 : ℚ) (x0 : α) : NodeFnOutput α :=
  let ode_result := solver.call fn t0 t1 x0
  let y := ode_result.phase_point
  { y := y
    grad_fn := fun grad_ys variablesKw =>
      let vars := variablesKw
      let backward := reverse_mode_derivative solver.callAug ops fn vars
      match backward t0 t1 y grad_ys with
      | .error e => .error e
      | .ok r => .ok ([r.2.1], r.2.2) }

/-- Embedding of `get_dynamical_node_function` (`core.py` lines 206-286) at a
fixed call `(t0, x0)`: runs the dynamical solver, takes `t1 = ode_result.time`
and `y = ode_result.phase_point` (lines 261-263), and registers the gradient
rule of lines 267-280, which builds the backward pass from the STATIC solver
and calls it at `(t0, t1, y, grad_ys)`.  `β` is the opaque type of the stop
condition object handed to the dynamical solver. -/
def get_dynamical_node_function {β : Type}
    (dynamical_solver : (ℚ → α → α) → β → ℚ → α → SolverResult α)
    (static_solver : ODESolverM α) (ops : TFOps α) (fn : ℚ → α → α)
    (stop_condition : β) (t0 : ℚ) (x0 : α) : NodeFnOutput α :=
  let ode_result := dynamical_solver fn stop_condition t0 x0
  let t1 := ode_result.time
  let y := ode_result.phase_point
  { y := y
    grad_fn := fun grad_ys variablesKw =>
      let vars := variablesKw
      let backward := reverse_mode_derivative static_solver.callAug ops fn vars
      match backward t0 t1 y grad_ys with
      | .error e => .error e
      | .ok r => .ok ([r.2.1], r.2.2) }

/-! ### A concrete scalar autodiff substrate

`core.py` delegates differentiation of the user network to the external
TensorFlow tape.  To settle the concrete claims we instantiate that external
primitive with an executable reverse-mode differentiator over a small scalar
expression language: a network is an expression in one state input and the
trainable parameters, and the VJP of a scalar function at cotangent `ct` is
`ct * derivative`. -/

/-- Syntax of scalar networks: the traced computation a gradient tape records.
Parameters are referred to by their index in the variable list. -/
inductive Expr where
  | time
  | state
  | param (i : Nat)
  | const (c : ℚ)
  | add (a b : Expr)
  | mul (a b : Expr)
  | neg (a : Expr)
deriving DecidableEq, Repr

/-- Evaluation of an expression at time `t`, state `z` and parameters `th`. -/
def eval (e : Expr) (t z : ℚ) (th : List ℚ) : ℚ :=
  match e with
  | .time => t
  | .state => z
  | .param i => th.getD i 0
  | .const c => c
  | .add a b => eval a t z th + eval b t z th
  | .mul a b => eval a t z th * eval b t z th
  | .neg a => - eval a t z th

/-- A differentiation input of the tape: the watched state or a parameter. -/
inductive Inp where
  | state
  | param (i : Nat)
deriving DecidableEq, Repr

/-- Partial derivative of an expression with respect to one input. -/
def deriv (e : Expr) (v : Inp) (t z : ℚ) (th : List ℚ) : ℚ :=
  match e, v with
  | .time, _ => 0
  | .state, .state => 1
  | .state, .param _ => 0
  | .param i, .param j => if i = j then 1 else 0
  | .param _, .state => 0
  | .const _, _ => 0
  | .add a b, v => deriv a v t z th + deriv b v t z th
  | .mul a b, v => deriv a v t z th * eval b t z th + eval a t z th * deriv b v t z th
  | .neg a, v => - deriv a v t z th

/-- Whether an input occurs in (is connected to) an expression; TensorFlow
reports gradients for inputs that are not connected to the output as zeros
under `unconnected_gradients=zero`. -/
def mentions (e : Expr) (v : Inp) : Bool :=
  match e, v with
  | .time, _ => false
  | .state, .state => true
  | .state, .param _ => false
  | .param i, .param j => i == j
  | .param _, .state => false
  | .const _, _ => false
  | .add a b, v => mentions a v || mentions b v
  | .mul a b, v => mentions a v || mentions b v
  | .neg a, v => mentions a v

/-- The model of `g.gradient(output, [state] + variables, ct,
unconnected_gradients=zero)` for a tape that recorded `output = eval e t z th`:
one vector-Jacobian product per source, cotangent times partial derivative. -/
def tfGradient (e : Expr) (th : List ℚ) (t z ct : ℚ) : List ℚ :=
  ct * deriv e .state t z th ::
    (List.range th.length).map (fun i => ct * deriv e (.param i) t z th)

/-- The scalar instantiation of the TensorFlow substrate: negation is
`-1 * x` as in `_negate`, `tf.zeros_like` of a scalar is `0`, and the tape
gradient is `tfGradient` for the recorded expression `e` with the parameter
values `th` read off the tape. -/
def exprTFOps (e : Expr) (th : List ℚ) : TFOps ℚ where
  negate := fun x => -1 * x
  zeros_like := fun _ => 0
  gradient := fun _network t sources ct => tfGradient e th t (sources.headD 0) ct

/-! ### A fixed-grid solver

The repository integrates with pluggable solvers; the fixed-grid solver used
by its test-suite (`node.fix_grid.FixGridODESolver`) is not part of the
sources under `src/`. -/

/-- One explicit Euler step over a flat augmented phase point. -/
def eulerStep (dt : ℚ) (x dx : List ℚ) : List ℚ :=
  List.zipWith (fun a b => a + dt * b) x dx

/-- Iterated Euler stepping; a field failure propagates. -/
def fixGridGo (field : ℚ → List ℚ → Except PyErr (List ℚ)) (dt : ℚ) :
    Nat → ℚ → List ℚ → Except PyErr (List ℚ)
  | 0, _, x => .ok x
  | m + 1, t, x =>
    match field t x with
    | .ok dx => fixGridGo field dt m (t + dt) (eulerStep dt x dx)
    | .error e => .error e

/-- Modelled from the spec: the stepping primitive and fixed-grid ODE solver
(spec sections 4.1 and 6; the concrete `node.fix_grid.FixGridODESolver` of the
repository is not under `src/`).  `forward t0 t1 x0` splits `[t0, t1]` into
`n` explicit Euler steps and returns a result carrying the final phase point,
satisfying the contract `forward t0 t0 x0 = x0`. -/
def fixGridSolve (n : Nat) (field : ℚ → List ℚ → Except PyErr (List ℚ))
    (t0 t1 : ℚ) (x0 : List ℚ) : Except PyErr (SolverResult (List ℚ)) :=
  match fixGridGo field ((t1 - t0) / n) n t0 x0 with
  | .ok x => .ok { time := t1, phase_point := x }
  | .error e => .error e

/-! ### StopCondition -/

/-- Python absolute value of a rational (`tf.abs` on scalars). -/
def pyAbs (q : ℚ) : ℚ := if q < 0 then -q else q

/-- `tf.reduce_max(tf.abs(v))` over the entries of a (nonempty) tensor,
modelled on the flat list of entries; entries of an absolute-valued tensor are
nonnegative, so folding `max` from `0` returns the maximum entry. -/
def reduceMaxAbs (l : List ℚ) : ℚ := (l.map pyAbs).foldr max 0

/-- The state of a `StopCondition` object (`core.py` lines 289-322): the
phase vector field, the two thresholds, and the mutable `relax_time`
variable.  `PP` is the phase point type; the field output is modelled by the
flat list of its tensor entries. -/
structure StopCond (PP : Type) where
  pvf : ℚ → PP → List ℚ
  max_time : ℚ
  relax_tol : ℚ
  relax_time : ℚ

/-- Embedding of `StopCondition.__init__` (`core.py` lines 307-312):
`relax_time` starts at `0.`. -/
def stopConditionInit (pvf : ℚ → PP → List ℚ) (max_time relax_tol : ℚ) :
    StopCond PP :=
  { pvf := pvf, max_time := max_time, relax_tol := relax_tol, relax_time := 0 }

/-- Embedding of `StopCondition.__call__` (`core.py` lines 314-322); the
mutation of the `relax_time` variable becomes an explicit state update. -/
def stopCall (s : StopCond PP) (t0 : ℚ) (_x0 : PP) (t1 : ℚ) (x1 : PP) :
    Bool × StopCond PP :=
  if t1 - t0 > s.max_time then (true, { s with relax_time := -1 })
  else if reduceMaxAbs (s.pvf t1 x1) < s.relax_tol then
    (true, { s with relax_time := t1 })
  else (false, s)

/-- Repeated invocation of one `StopCondition` instance by integration loops
(the instance persists across calls; the class has no reset operation). -/
def runStopCalls (s : StopCond PP) (calls : List (ℚ × PP × ℚ × PP)) :
    StopCond PP :=
  calls.foldl (fun st c => (stopCall st c.1 c.2.1 c.2.2.1 c.2.2.2).2) s

/-! ### Tensors and nest structures

`tf.nest.flatten` and `tf.nest.pack_sequence_as` operate on tree-shaped
phase points whose leaves are tensors.  A tensor is modelled by its shape and
its flat entries; a nest is a finite rose tree (a sequence container of
sub-nests, the mutually inductive `NestList` playing the role of the Python
sequence of children). -/

/-- A tensor: leaf of a nest structure, with a shape and flat rational
entries. -/
structure Tensor where
  shape : List Nat
  data : List ℚ
deriving DecidableEq, Repr

mutual

/-- A nest structure over leaf type `γ` (Python nested sequences). -/
inductive Nest (γ : Type) where
  | leaf : γ → Nest γ
  | node : NestList γ → Nest γ

/-- The children sequence of a nest node. -/
inductive NestList (γ : Type) where
  | nil : NestList γ
  | cons : Nest γ → NestList γ → NestList γ

end

mutual

/-- Model of `tf.nest.flatten`: the left-to-right sequence of leaves. -/
def flatten : Nest γ → List γ
  | .leaf x => [x]
  | .node cs => flattenChildren cs

/-- Leaves of a children sequence, in order. -/
def flattenChildren : NestList γ → List γ
  | .nil => []
  | .cons c cs => flatten c ++ flattenChildren cs

end

mutual

/-- One step of `tf.nest.pack_sequence_as`: consume leaves of `flat` into the
shape of `template`, returning the packed nest and the leftover leaves
(`none` when `flat` runs short). -/
def packAux : Nest δ → List γ → Option (Nest γ × List γ)
  | .leaf _, [] => none
  | .leaf _, x :: rest => some (.leaf x, rest)
  | .node cs, flat =>
    match packAuxChildren cs flat with
    | some (ds, rest) => some (.node ds, rest)
    | none => none

/-- `packAux` over a children sequence. -/
def packAuxChildren : NestList δ → List γ → Option (NestList γ × List γ)
  | .nil, flat => some (.nil, flat)
  | .cons c cs, flat =>
    match packAux c flat with
    | some (d, rest) =>
      match packAuxChildren cs rest with
      | some (ds, rest2) => some (.cons d ds, rest2)
      | none => none
    | none => none

end

/-- Model of `tf.nest.pack_sequence_as(template, flat)`: rebuild the tree
shape of `template` from the flat leaf sequence; `none` models the Python
`ValueError` raised when the leaf count does not match. -/
def pack_sequence_as (template : Nest δ) (flat : List γ) : Option (Nest γ) :=
  match packAux template flat with
  | some (t, []) => some t
  | _ => none

mutual

/-- Whether two nests have the same tree structure (leaf positions and
branching), ignoring the leaf payloads. -/
def sameStructure : Nest γ → Nest δ → Bool
  | .leaf _, .leaf _ => true
  | .node cs, .node ds => sameStructureChildren cs ds
  | _, _ => false

/-- `sameStructure` over children sequences. -/
def sameStructureChildren : NestList γ → NestList δ → Bool
  | .nil, .nil => true
  | .cons c cs, .cons d ds => sameStructure c d && sameStructureChildren cs ds
  | _, _ => false

end

/-- The round trip at the `tf.custom_gradient` registration boundary
(`core.py` lines 201 and 177): the phase point is flattened into positional
arguments and immediately packed back against the structure of `x0`. -/
def boundary_roundtrip (x0 : Nest Tensor) : Option (Nest Tensor) :=
  pack_sequence_as x0 (flatten x0)

/-! ### Signatures and dtypes -/

/-- Tensor dtypes (only distinguishability matters for the claims). -/
inductive DType where
  | float32
  | float64
deriving DecidableEq, Repr

/-- A Python value that can appear in a `signature` argument: a
`tf.TensorSpec`, a sequence (list/tuple), or a dict.  Python indexing
`v[0]` succeeds only on a nonempty sequence; on a dict it is a key lookup and
raises `KeyError` (TensorSpec signatures use string keys, never the key `0`),
and on a `TensorSpec` it raises `TypeError`. -/
inductive SigVal where
  | tensorSpec (dtype : DType)
  | listVal (items : List SigVal)
  | dictVal (entries : List SigVal)

/-- The `while not isinstance(spec, tf.TensorSpec): spec = spec[0]` loop of
`get_dtype_from_signature` (`core.py` lines 106-110), started on a value
already extracted by `signature[0]`. -/
def dtypeLoop : SigVal → Except PyErr DType
  | .tensorSpec d => .ok d
  | .listVal [] => .error .indexError
  | .listVal (x :: _) => dtypeLoop x
  | .dictVal _ => .error .keyError

/-- Embedding of `get_dtype_from_signature` (`core.py` lines 96-110): take
`signature[0]`, then follow first elements until a `tf.TensorSpec` is found,
propagating the Python error when an indexing step fails. -/
def get_dtype_from_signature : SigVal → Except PyErr DType
  | .tensorSpec _ => .error .typeError
  | .listVal [] => .error .indexError
  | .listVal (x :: _) => dtypeLoop x
  | .dictVal _ => .error .keyError

/-- Python truthiness of a signature value: empty sequences and dicts are
falsy, everything else is truthy. -/
def truthy : SigVal → Bool
  | .listVal [] => false
  | .dictVal [] => false
  | _ => true

/-- The construction-time signature handling of `get_node_function`
(`core.py` lines 141-147): only when the `signature` argument is truthy is
`get_dtype_from_signature` consulted to build an input signature; otherwise
`input_signature = None` (modelled by `none`). -/
def node_fn_input_signature (signature : Option SigVal) :
    Except PyErr (Option DType) :=
  match signature with
  | some s =>
    if truthy s then
      match get_dtype_from_signature s with
      | .ok d => .ok (some d)
      | .error e => .error e
    else .ok none
  | none => .ok none

/-- The dtype reached by the leftmost chain of first elements, as the claim
words it: the signature must be a non-empty indexable structure whose
leftmost chain of first elements ends at a `tf.TensorSpec`.  This definition
follows the words of the spec claim; the theorems compare it with the
source-derived `get_dtype_from_signature`. -/
def chainDtypeSpec : SigVal → Option DType
  | .tensorSpec d => some d
  | .listVal (x :: _) => chainDtypeSpec x
  | .listVal [] => none
  | .dictVal _ => none

/-- `chainDtypeSpec` applied after the initial `signature[0]` step. -/
def leftmostDtypeSpec : SigVal → Option DType
  | .listVal (x :: _) => chainDtypeSpec x
  | _ => none

/-! ### The `tfp_impl` solver -/

/-- The results object of `tfp.math.ode.Solver.solve`: the solution times
and, stacked along a new leading axis, the states at those times.  The
integrator itself is external (spec section 1); it is modelled by the
numerical solution trajectory `traj` it computes for the given field and
initial condition, which any integrator evaluates exactly at the initial
time (`traj t0 = x0`). -/
structure TfpOdeResults where
  times : List ℚ
  states : Tensor
deriving DecidableEq, Repr

/-- Model of `self._solver.solve(fn, t0, x0, solution_times)`
(`tfp_impl.py` line 16): `results.states` stacks the phase points
`traj s` for each requested time `s` along a new leading axis of length
`len(solution_times)`. -/
def tfpSolve (traj : ℚ → Tensor) (_initial_time : ℚ) (x0 : Tensor)
    (solution_times : List ℚ) :
    TfpOdeResults :=
  { times := solution_times
    states := { shape := solution_times.length :: x0.shape
                data := (solution_times.map (fun s => (traj s).data)).flatten } }

/-- Embedding of `RKF45Solver.__call__`s `forward` (`tfp_impl.py` lines
15-18): `result = self._solver.solve(fn, t0, x0, [t1]); return result.states`.
The returned value is the raw stacked states tensor, not a solver-result
object. -/
def rkf45Forward (traj : ℚ → Tensor) (t0 t1 : ℚ) (x0 : Tensor) : Tensor :=
  (tfpSolve traj t0 x0 [t1]).states

/-! ### Lemmas about the scalar autodiff -/

/-- An input that does not occur in an expression has zero derivative: the
model of TensorFlow returning the additive identity for unconnected inputs
under the zero unconnected-gradients policy. -/
theorem deriv_eq_zero_of_not_mentions (e : Expr) (v : Inp) (t z : ℚ)
    (th : List ℚ) (h : mentions e v = false) : deriv e v t z th = 0 := by
  induction e with
  | time => rfl
  | state =>
    cases v with
    | state => simp [mentions] at h
    | param i => rfl
  | param i =>
    cases v with
    | state => rfl
    | param j =>
      have hne : i ≠ j := by
        intro hij
        rw [hij] at h
        simp [mentions] at h
      simp [deriv, hne]
  | const c => rfl
  | add a b iha ihb =>
    simp only [mentions, Bool.or_eq_false_iff] at h
    simp [deriv, iha h.1, ihb h.2]
  | mul a b iha ihb =>
    simp only [mentions, Bool.or_eq_false_iff] at h
    simp [deriv, iha h.1, ihb h.2]
  | neg a iha =>
    simp only [mentions] at h
    simp [deriv, iha h]

/-- Claim C1: for every base field (expression) and parameter list, the
augmented field of `reverse_mode_derivative` maps time `t` and augmented
point `[z, a, g_1, ..., g_k]` to `[f(t, z), vjp_state, vjp_param_1, ...,
vjp_param_k]` where each VJP is taken at the negated adjoint `-a` as the
cotangent, and an input not connected to the output receives the zero
gradient rather than an error. -/
theorem c1_aug_dynamics_structure (e : Expr) (th : List ℚ) (t z a : ℚ)
    (rest : List ℚ) :
    (aug_dynamics (exprTFOps e th) (fun s w => eval e s w th) (some th) t
        (z :: a :: rest)
      = .ok (eval e t z th ::
          (-1 * a) * deriv e .state t z th ::
          (List.range th.length).map
            (fun i => (-1 * a) * deriv e (.param i) t z th)))
    ∧ (mentions e .state = false → (-1 * a) * deriv e .state t z th = 0)
    ∧ (∀ i, mentions e (.param i) = false →
        (-1 * a) * deriv e (.param i) t z th = 0) := by
  refine ⟨rfl, fun h => ?_, fun i h => ?_⟩
  · rw [deriv_eq_zero_of_not_mentions e .state t z th h, mul_zero]
  · rw [deriv_eq_zero_of_not_mentions e (.param i) t z th h, mul_zero]

/-- Witness for C1 at the network `f(t, z) = theta_0` with parameters
`[2, 5]`, adjoint `1`: the output is `[2, -1 * 1, 0, 0]`-shaped as claimed,
and the unconnected inputs (the state and the unused second parameter)
receive zero gradients. -/
theorem c1_aug_dynamics_witness :
    (aug_dynamics (exprTFOps (.param 0) [2, 5])
        (fun s w => eval (.param 0) s w [2, 5]) (some [2, 5]) 7 (3 :: 1 :: [])
      = .ok (eval (.param 0) 7 3 [2, 5] ::
          (-1 * 1) * deriv (.param 0) .state 7 3 [2, 5] ::
          (List.range ([2, 5] : List ℚ).length).map
            (fun i => (-1 * 1) * deriv (.param 0) (.param i) 7 3 [2, 5])))
    ∧ (-1 * 1) * deriv (.param 0) Inp.state 7 3 [2, 5] = 0
    ∧ (-1 * 1) * deriv (.param 0) (Inp.param 1) 7 3 [2, 5] = 0 :=
  ⟨(c1_aug_dynamics_structure (.param 0) [2, 5] 7 3 1 []).1,
   (c1_aug_dynamics_structure (.param 0) [2, 5] 7 3 1 []).2.1 (by decide),
   (c1_aug_dynamics_structure (.param 0) [2, 5] 7 3 1 []).2.2 1 (by decide)⟩

/-- Claim C2: the backward operator returned by `reverse_mode_derivative`
builds the augmented initial point `[z_final, dL/dz_final, zeros_like
theta_1, ..., zeros_like theta_k]` of length `2 + k`, hands it to the base
solver with the time arguments swapped (`forward t1 t0`), and unpacks the
resulting phase point positionally into `(z_initial, dL/dz_initial,
[dL/dtheta_1, ...])`. -/
theorem c2_backward_structure {α : Type}
    (ode_solver : (ℚ → List α → Except PyErr (List α)) →
      ℚ → ℚ → List α → Except PyErr (SolverResult (List α)))
    (ops : TFOps α) (network : ℚ → α → α) (vs : List α)
    (t0 t1 : ℚ) (z_final dL : α) :
    (z_final :: dL :: vs.map ops.zeros_like).length = 2 + vs.length
    ∧ ∀ (res : SolverResult (List α)) (a b : α) (rest : List α),
        ode_solver (aug_dynamics ops network (some vs)) t1 t0
            (z_final :: dL :: vs.map ops.zeros_like) = .ok res →
        res.phase_point = a :: b :: rest →
        reverse_mode_derivative ode_solver ops network (some vs) t0 t1 z_final dL
          = .ok (a, b, rest) := by
  constructor
  · simp only [List.length_cons, List.length_map]
    omega
  · intro res a b rest hfwd hpp
    obtain ⟨tm, pp⟩ := res
    simp only at hpp
    subst hpp
    have hred : reverse_mode_derivative ode_solver ops network (some vs) t0 t1
        z_final dL
        = match ode_solver (aug_dynamics ops network (some vs)) t1 t0
            (z_final :: dL :: vs.map ops.zeros_like) with
          | .error e => .error e
          | .ok ode_result =>
            match ode_result.phase_point with
            | i :: j :: g => .ok (i, j, g)
            | _ => .error .valueError := rfl
    rw [hred, hfwd]

/-- Witness for C2 with a concrete solver that returns the augmented point
unchanged: for one parameter, final state 3 and final gradient 4, the
augmented point is `[3, 4, 0]` and the backward operator unpacks it into
`(3, 4, [0])`. -/
theorem c2_backward_witness :
    reverse_mode_derivative
        (fun _field _u v pt => .ok { time := v, phase_point := pt })
        (exprTFOps (.const 0) []) (fun _ z => z) (some [5]) 0 1 3 4
      = .ok ((3 : ℚ), 4, [0]) :=
  (c2_backward_structure (fun _field _u v pt => .ok { time := v, phase_point := pt })
      (exprTFOps (.const 0) []) (fun _ z => z) [5] 0 1 3 4).2
    { time := 0, phase_point := [3, 4, 0] } 3 4 [0] rfl rfl

/-- Claim C3: for both node functions the registered gradient rule computes
exactly the backward pass of `reverse_mode_derivative` built over the static
solver, applied at `(t0, t1_actual, y, dL/dy)` where `t1_actual` is the end
time of the forward solve (for the dynamical variant, the time returned by
the dynamical solver), returning `([dL/dx0], dL/dtheta)`; the engine calls
this registered rule rather than differentiating the forward internals,
which is the content of the `NodeFnOutput` pair registration. -/
theorem c3_grad_fn_wiring {α β : Type} (solver : ODESolverM α) (ops : TFOps α)
    (fn : ℚ → α → α) (t0 t1 : ℚ) (x0 dy : α) (vk : Option (List α))
    (dynamical_solver : (ℚ → α → α) → β → ℚ → α → SolverResult α)
    (stop_condition : β) (x0d : α) :
    ((get_node_function solver ops fn t0 t1 x0).grad_fn dy vk
      = match reverse_mode_derivative solver.callAug ops fn vk t0 t1
            ((solver.call fn t0 t1 x0).phase_point) dy with
        | .error e => .error e
        | .ok r => .ok ([r.2.1], r.2.2))
    ∧ ((get_dynamical_node_function dynamical_solver solver ops fn
          stop_condition t0 x0d).grad_fn dy vk
      = match reverse_mode_derivative solver.callAug ops fn vk t0
            ((dynamical_solver fn stop_condition t0 x0d).time)
            ((dynamical_solver fn stop_condition t0 x0d).phase_point) dy with
        | .error e => .error e
        | .ok r => .ok ([r.2.1], r.2.2)) :=
  ⟨rfl, rfl⟩

/-- A trivial concrete solver object over scalar phase points, for witness
instantiations: the forward result carries the initial point unchanged. -/
def idSolverM : ODESolverM ℚ where
  call := fun _fn _t0 t1 x0 => { time := t1, phase_point := x0 }
  callAug := fun _field _t0 t1 pt => .ok { time := t1, phase_point := pt }

/-- Claim C8: when the engine omits the `variables` keyword, `grad_fn`
passes Python `None` on to `reverse_mode_derivative`, and the backward call
fails (the `TypeError` of iterating over `None`) instead of returning an
empty parameter-gradient list. -/
theorem c8_variables_none_fails {α : Type} (solver : ODESolverM α)
    (ops : TFOps α) (fn : ℚ → α → α) (t0 t1 : ℚ) (x0 dy : α) :
    (get_node_function solver ops fn t0 t1 x0).grad_fn dy none
      = .error .typeError
    ∧ ∀ r : List α × List α,
        (get_node_function solver ops fn t0 t1 x0).grad_fn dy none ≠ .ok r := by
  have h1 : (get_node_function solver ops fn t0 t1 x0).grad_fn dy none
      = .error .typeError := rfl
  refine ⟨h1, fun r h => ?_⟩
  rw [h1] at h
  exact Except.noConfusion h

/-- Witness for C8 at a concrete solver, field and call: the gradient rule
invoked without the variables keyword yields the `TypeError` and in
particular not the empty parameter-gradient list. -/
theorem c8_variables_none_fails_witness :
    (get_node_function idSolverM (exprTFOps .state []) (fun _ z => z)
        0 1 3).grad_fn 4 none = .error .typeError
    ∧ (get_node_function idSolverM (exprTFOps .state []) (fun _ z => z)
        0 1 3).grad_fn 4 none ≠ .ok ([0], []) :=
  ⟨(c8_variables_none_fails idSolverM (exprTFOps .state []) (fun _ z => z)
      0 1 3 4).1,
   (c8_variables_none_fails idSolverM (exprTFOps .state []) (fun _ z => z)
      0 1 3 4).2 ([0], [])⟩

/-! ### StopCondition theorems -/

/-- A call that fires no terminal outcome leaves the whole state, in
particular `relax_time`, unchanged. -/
theorem stopCall_false_eq {PP : Type} (s : StopCond PP) (t0 : ℚ) (x0 : PP)
    (t1 : ℚ) (x1 : PP) (h : (stopCall s t0 x0 t1 x1).1 = false) :
    (stopCall s t0 x0 t1 x1).2 = s := by
  by_cases hc : t1 - t0 > s.max_time
  · simp [stopCall, hc] at h
  · by_cases hr : reduceMaxAbs (s.pvf t1 x1) < s.relax_tol
    · simp [stopCall, hc, hr] at h
    · simp [stopCall, hc, hr]

/-- Claim C4: the timeout test is checked first; on `t1 - t0 > max_time` the
call records `relax_time = -1` and returns true without the relaxation
outcome firing; otherwise, if the maximal absolute field entry at `(t1, x1)`
is below `relax_tol`, it records `relax_time = t1` and returns true; otherwise
it returns false and changes nothing.  Exactly one of the three outcomes
applies to any call. -/
theorem c4_stop_condition_cases {PP : Type} (s : StopCond PP) (t0 : ℚ)
    (x0 : PP) (t1 : ℚ) (x1 : PP) :
    (t1 - t0 > s.max_time →
      stopCall s t0 x0 t1 x1 = (true, { s with relax_time := -1 }))
    ∧ (¬ t1 - t0 > s.max_time →
        reduceMaxAbs (s.pvf t1 x1) < s.relax_tol →
      stopCall s t0 x0 t1 x1 = (true, { s with relax_time := t1 }))
    ∧ (¬ t1 - t0 > s.max_time →
        ¬ reduceMaxAbs (s.pvf t1 x1) < s.relax_tol →
      stopCall s t0 x0 t1 x1 = (false, s)) := by
  refine ⟨fun h => ?_, fun h h2 => ?_, fun h h2 => ?_⟩
  · simp [stopCall, h]
  · simp [stopCall, h, h2]
  · simp [stopCall, h, h2]

/-- A concrete stop condition over unit phase points whose field value at
time `t` is the tensor `[t]`, with `max_time = 10` and `relax_tol = 1/2`;
`rt` is the currently recorded `relax_time`. -/
def rampStopCond (rt : ℚ) : StopCond Unit :=
  { pvf := fun t _ => [t], max_time := 10, relax_tol := 1/2, relax_time := rt }

/-- Witness for C4 on the stop condition with field value `[t]`, `max_time
= 10`, `relax_tol = 1/2`: a call with elapsed time `20` times out (even
though the field there is large), a call reaching `t1 = 1/4` relaxes, and a
call reaching `t1 = 1` fires nothing. -/
theorem c4_stop_condition_witness :
    (stopCall (rampStopCond 0) 0 () 20 ()
      = (true, { rampStopCond 0 with relax_time := -1 }))
    ∧ (stopCall (rampStopCond 0) 0 () (1/4) ()
      = (true, { rampStopCond 0 with relax_time := 1/4 }))
    ∧ (stopCall (rampStopCond 0) 0 () 1 () = (false, rampStopCond 0)) :=
  ⟨(c4_stop_condition_cases (rampStopCond 0) 0 () 20 ()).1
     (by norm_num [rampStopCond]),
   (c4_stop_condition_cases (rampStopCond 0) 0 () (1/4) ()).2.1
     (by norm_num [rampStopCond])
     (by norm_num [rampStopCond, reduceMaxAbs, pyAbs]),
   (c4_stop_condition_cases (rampStopCond 0) 0 () 1 ()).2.2
     (by norm_num [rampStopCond])
     (by norm_num [rampStopCond, reduceMaxAbs, pyAbs])⟩

/-- Claim C9: `relax_time` starts at `0.` on construction, a call mutates it
only when a terminal outcome fires (a non-firing call returns the state
unchanged, and any call either preserves `relax_time` or fires), and no reset
exists: any sequence of non-firing calls on one instance leaves the
previously recorded `relax_time` in place. -/
theorem c9_relax_time_lifecycle {PP : Type} (pvf : ℚ → PP → List ℚ)
    (mt rt : ℚ) :
    (stopConditionInit pvf mt rt).relax_time = 0
    ∧ (∀ (s : StopCond PP) (t0 : ℚ) (x0 : PP) (t1 : ℚ) (x1 : PP),
        (stopCall s t0 x0 t1 x1).1 = false → (stopCall s t0 x0 t1 x1).2 = s)
    ∧ (∀ (s : StopCond PP) (t0 : ℚ) (x0 : PP) (t1 : ℚ) (x1 : PP),
        (stopCall s t0 x0 t1 x1).2.relax_time = s.relax_time
        ∨ (stopCall s t0 x0 t1 x1).1 = true)
    ∧ (∀ (s : StopCond PP) (calls : List (ℚ × PP × ℚ × PP)),
        (∀ c ∈ calls, (stopCall s c.1 c.2.1 c.2.2.1 c.2.2.2).1 = false) →
        runStopCalls s calls = s) := by
  refine ⟨rfl, fun s t0 x0 t1 x1 => stopCall_false_eq s t0 x0 t1 x1,
    fun s t0 x0 t1 x1 => ?_, fun s calls h => ?_⟩
  · by_cases hc : t1 - t0 > s.max_time
    · right; simp [stopCall, hc]
    · by_cases hr : reduceMaxAbs (s.pvf t1 x1) < s.relax_tol
      · right; simp [stopCall, hc, hr]
      · left; simp [stopCall, hc, hr]
  · induction calls with
    | nil => rfl
    | cons c cs ih =>
      have hc := h c (List.mem_cons_self c cs)
      have hstep : runStopCalls s (c :: cs)
          = runStopCalls (stopCall s c.1 c.2.1 c.2.2.1 c.2.2.2).2 cs := rfl
      rw [hstep, stopCall_false_eq _ _ _ _ _ hc]
      exact ih (fun d hd => h d (List.mem_cons_of_mem c hd))

/-- Witness for C9: an instance whose `relax_time` holds `42` from an earlier
integration keeps that value across a fresh construction check and a run of
two non-firing calls. -/
theorem c9_relax_time_witness :
    (stopConditionInit (fun t (_ : Unit) => [t]) 10 (1/2)).relax_time = 0
    ∧ runStopCalls (rampStopCond 42) [(0, (), 1, ()), (0, (), 2, ())]
      = rampStopCond 42 :=
  ⟨(c9_relax_time_lifecycle (fun t (_ : Unit) => [t]) 10 (1/2)).1,
   (c9_relax_time_lifecycle (fun t (_ : Unit) => [t]) 10 (1/2)).2.2.2 _ _
     (by
       intro c hc
       simp only [List.mem_cons, List.not_mem_nil, or_false] at hc
       rcases hc with h | h <;> subst h <;>
         norm_num [rampStopCond, stopCall, reduceMaxAbs, pyAbs])⟩

/-! ### The zero-gradient identity -/

/-- Mapping the constant zero over any list yields a zero list. -/
theorem map_const_zero (l : List γ) :
    l.map (fun _ => (0 : ℚ)) = List.replicate l.length 0 := by
  induction l with
  | nil => rfl
  | cons x xs ih => simp [List.replicate, ih]

/-- Zipping two zero lists with the Euler update yields a zero list. -/
theorem zipWith_euler_zero (dt : ℚ) (k : Nat) :
    List.zipWith (fun a b => a + dt * b) (List.replicate k (0 : ℚ))
      (List.replicate k 0) = List.replicate k 0 := by
  induction k with
  | zero => rfl
  | succ m ih => simp [List.replicate, ih]

/-- The tape gradient at cotangent zero is the zero list: VJPs are linear in
the cotangent. -/
theorem tfGradient_zero_cotangent (e : Expr) (th : List ℚ) (t z : ℚ) :
    tfGradient e th t z 0 = 0 :: List.replicate th.length 0 := by
  simp [tfGradient, map_const_zero]

/-- On an augmented point with zero adjoint, the augmented field produces
zero adjoint- and accumulator-derivatives. -/
theorem aug_dynamics_zero_adjoint (e : Expr) (th : List ℚ) (t z : ℚ)
    (rest : List ℚ) :
    aug_dynamics (exprTFOps e th) (fun s w => eval e s w th) (some th) t
        (z :: 0 :: rest)
      = .ok (eval e t z th :: 0 :: List.replicate th.length 0) := by
  have h : (exprTFOps e th).negate 0 = 0 := by
    simp [exprTFOps]
  calc aug_dynamics (exprTFOps e th) (fun s w => eval e s w th) (some th) t
        (z :: 0 :: rest)
      = .ok (eval e t z th ::
          tfGradient e th t z ((exprTFOps e th).negate 0)) := rfl
    _ = .ok (eval e t z th :: 0 :: List.replicate th.length 0) := by
        rw [h, tfGradient_zero_cotangent]

/-- Euler iteration preserves the zero-adjoint, zero-accumulator subspace of
the augmented system. -/
theorem fixGridGo_zero_adjoint (e : Expr) (th : List ℚ) (dt : ℚ) :
    ∀ (m : Nat) (t z : ℚ), ∃ z1,
      fixGridGo (aug_dynamics (exprTFOps e th) (fun s w => eval e s w th)
          (some th)) dt m t (z :: 0 :: List.replicate th.length 0)
        = .ok (z1 :: 0 :: List.replicate th.length 0) := by
  intro m
  induction m with
  | zero => exact fun t z => ⟨z, rfl⟩
  | succ n ih =>
    intro t z
    have hfield := aug_dynamics_zero_adjoint e th t z
      (List.replicate th.length 0)
    have hstep : eulerStep dt (z :: 0 :: List.replicate th.length 0)
        (eval e t z th :: 0 :: List.replicate th.length 0)
        = (z + dt * eval e t z th) :: 0 :: List.replicate th.length 0 := by
      simp [eulerStep, zipWith_euler_zero]
    obtain ⟨z1, hz⟩ := ih (t + dt) (z + dt * eval e t z th)
    refine ⟨z1, ?_⟩
    have hgo : fixGridGo (aug_dynamics (exprTFOps e th)
          (fun s w => eval e s w th) (some th)) dt (n + 1) t
          (z :: 0 :: List.replicate th.length 0)
        = fixGridGo (aug_dynamics (exprTFOps e th)
            (fun s w => eval e s w th) (some th)) dt n (t + dt)
            (eulerStep dt (z :: 0 :: List.replicate th.length 0)
              (eval e t z th :: 0 :: List.replicate th.length 0)) := by
      rw [fixGridGo, hfield]
    rw [hgo, hstep, hz]

/-- Claim C7: for every field, parameter list, horizon and final state, the
backward pass of `reverse_mode_derivative` over the fixed-grid solver, run
with an all-zero final loss gradient, returns zero for the initial-state
gradient and zero for every parameter gradient: the adjoint and accumulator
components of the augmented field vanish when the adjoint is zero, so they
stay zero under the integration. -/
theorem c7_zero_gradient_identity (e : Expr) (th : List ℚ) (n : Nat)
    (t0 t1 zf : ℚ) :
    ∃ z0, reverse_mode_derivative (fixGridSolve n) (exprTFOps e th)
        (fun s w => eval e s w th) (some th) t0 t1 zf 0
      = .ok (z0, 0, List.replicate th.length 0) := by
  obtain ⟨z1, hz⟩ := fixGridGo_zero_adjoint e th ((t0 - t1) / n) n t1 zf
  refine ⟨z1, ?_⟩
  have hpt : th.map (exprTFOps e th).zeros_like = List.replicate th.length 0 :=
    map_const_zero th
  have hforward : fixGridSolve n (aug_dynamics (exprTFOps e th)
        (fun s w => eval e s w th) (some th)) t1 t0
        (zf :: 0 :: th.map (exprTFOps e th).zeros_like)
      = .ok { time := t0,
              phase_point := z1 :: 0 :: List.replicate th.length 0 } := by
    rw [hpt]
    unfold fixGridSolve
    rw [hz]
  simp only [reverse_mode_derivative, backward_operator]
  rw [hforward]

/-! ### Nest round-trip theorems -/

mutual

/-- Packing the flat leaf list of a nest (followed by any leftover leaves)
reconstructs the nest and returns the leftovers. -/
theorem packAux_flatten_append (t : Nest γ) (rest : List γ) :
    packAux t (flatten t ++ rest) = some (t, rest) := by
  cases t with
  | leaf x => rfl
  | node cs =>
    show packAux (.node cs) (flattenChildren cs ++ rest) = some (.node cs, rest)
    simp only [packAux, packAuxChildren_flatten_append cs rest]

/-- The children-sequence version of `packAux_flatten_append`. -/
theorem packAuxChildren_flatten_append (ts : NestList γ) (rest : List γ) :
    packAuxChildren ts (flattenChildren ts ++ rest) = some (ts, rest) := by
  cases ts with
  | nil => rfl
  | cons c cs =>
    show packAuxChildren (.cons c cs)
        ((flatten c ++ flattenChildren cs) ++ rest) = some (.cons c cs, rest)
    rw [List.append_assoc]
    simp only [packAuxChildren,
      packAux_flatten_append c (flattenChildren cs ++ rest),
      packAuxChildren_flatten_append cs rest]

end

mutual

/-- A successfully packed nest has the tree structure of its template. -/
theorem packAux_sameStructure (t : Nest δ) (flat : List γ) (t2 : Nest γ)
    (rest : List γ) (h : packAux t flat = some (t2, rest)) :
    sameStructure t2 t = true := by
  cases t with
  | leaf x =>
    cases flat with
    | nil => exact Option.noConfusion h
    | cons y ys =>
      simp only [packAux, Option.some.injEq, Prod.mk.injEq] at h
      obtain ⟨rfl, rfl⟩ := h
      rfl
  | node cs =>
    cases hm : packAuxChildren cs flat with
    | none =>
      simp only [packAux, hm] at h
      exact Option.noConfusion h
    | some p =>
      obtain ⟨ds, rest2⟩ := p
      simp only [packAux, hm, Option.some.injEq, Prod.mk.injEq] at h
      obtain ⟨rfl, rfl⟩ := h
      exact packAuxChildren_sameStructure cs flat ds rest2 hm

/-- The children-sequence version of `packAux_sameStructure`. -/
theorem packAuxChildren_sameStructure (ts : NestList δ) (flat : List γ)
    (ts2 : NestList γ) (rest : List γ)
    (h : packAuxChildren ts flat = some (ts2, rest)) :
    sameStructureChildren ts2 ts = true := by
  cases ts with
  | nil =>
    simp only [packAuxChildren, Option.some.injEq, Prod.mk.injEq] at h
    obtain ⟨rfl, rfl⟩ := h
    rfl
  | cons c cs =>
    cases hc : packAux c flat with
    | none =>
      simp only [packAuxChildren, hc] at h
      exact Option.noConfusion h
    | some p =>
      obtain ⟨d, rest1⟩ := p
      cases hcs : packAuxChildren cs rest1 with
      | none =>
        simp only [packAuxChildren, hc, hcs] at h
        exact Option.noConfusion h
      | some q =>
        obtain ⟨ds, rest2⟩ := q
        simp only [packAuxChildren, hc, hcs, Option.some.injEq,
          Prod.mk.injEq] at h
        obtain ⟨rfl, rfl⟩ := h
        rw [sameStructureChildren]
        rw [packAux_sameStructure c flat d rest1 hc,
          packAuxChildren_sameStructure cs rest1 ds rest2 hcs]
        rfl

end

mutual

/-- When enough leaves are supplied, packing succeeds and consumes exactly
as many leaves as the template has. -/
theorem packAux_total (t : Nest δ) (flat : List γ)
    (h : (flatten t).length ≤ flat.length) :
    ∃ t2 rest, packAux t flat = some (t2, rest)
      ∧ flat.length = (flatten t).length + rest.length := by
  cases t with
  | leaf x =>
    cases flat with
    | nil => simp [flatten] at h
    | cons y ys =>
      refine ⟨.leaf y, ys, rfl, ?_⟩
      show (y :: ys).length = ([x] : List δ).length + ys.length
      simp only [List.length_cons, List.length_nil]
      omega
  | node cs =>
    obtain ⟨ts2, rest, hp, hlen⟩ := packAuxChildren_total cs flat h
    exact ⟨.node ts2, rest, by simp only [packAux, hp], hlen⟩

/-- The children-sequence version of `packAux_total`. -/
theorem packAuxChildren_total (ts : NestList δ) (flat : List γ)
    (h : (flattenChildren ts).length ≤ flat.length) :
    ∃ ts2 rest, packAuxChildren ts flat = some (ts2, rest)
      ∧ flat.length = (flattenChildren ts).length + rest.length := by
  cases ts with
  | nil => exact ⟨.nil, flat, rfl, by simp [flattenChildren]⟩
  | cons c cs =>
    rw [flattenChildren, List.length_append] at h
    obtain ⟨d, rest1, hd, hlen1⟩ := packAux_total c flat (by omega)
    obtain ⟨ds, rest2, hds, hlen2⟩ := packAuxChildren_total cs rest1 (by omega)
    refine ⟨.cons d ds, rest2, ?_, ?_⟩
    · simp only [packAuxChildren, hd, hds]
    · rw [flattenChildren, List.length_append]
      omega

end

/-- The flatten-then-pack round trip is the identity. -/
theorem pack_flatten_roundtrip (t : Nest γ) :
    pack_sequence_as t (flatten t) = some t := by
  rw [pack_sequence_as, ← List.append_nil (flatten t),
    packAux_flatten_append t []]

/-- Claim C6: flattening a phase point at the custom-gradient registration
boundary and reassembling it against its own tree structure reproduces it
exactly, for every nest (in particular those of depth at least two with
mixed leaf shapes); and any flat cotangent list of matching length packs
against the output structure into a tree of the same shape. -/
theorem c6_boundary_roundtrip :
    (∀ x0 : Nest Tensor, boundary_roundtrip x0 = some x0)
    ∧ ∀ (y : Nest Tensor) (ys : List Tensor),
        ys.length = (flatten y).length →
        ∃ t, pack_sequence_as y ys = some t ∧ sameStructure t y = true := by
  refine ⟨fun x0 => pack_flatten_roundtrip x0, fun y ys hlen => ?_⟩
  obtain ⟨t2, rest, hp, hl⟩ := packAux_total y ys (le_of_eq hlen.symm)
  have hrest : rest = [] := by
    have : rest.length = 0 := by omega
    exact List.length_eq_zero.mp this
  subst hrest
  refine ⟨t2, ?_, packAux_sameStructure y ys t2 [] hp⟩
  rw [pack_sequence_as, hp]

/-- A depth-two nest with mixed leaf shapes: a vector of length 2 beside a
sub-nest holding a scalar and a vector of length 3. -/
def mixedNest : Nest Tensor :=
  .node (.cons (.leaf { shape := [2], data := [1, 2] })
    (.cons (.node (.cons (.leaf { shape := [], data := [5] })
      (.cons (.leaf { shape := [3], data := [1, 2, 3] }) .nil))) .nil))

/-- A flat cotangent sequence matching `mixedNest` leaf for leaf. -/
def mixedCotangents : List Tensor :=
  [{ shape := [2], data := [9, 9] }, { shape := [], data := [7] },
   { shape := [3], data := [4, 4, 4] }]

/-- Witness for C6 on the depth-two mixed-shape nest. -/
theorem c6_boundary_roundtrip_witness :
    boundary_roundtrip mixedNest = some mixedNest
    ∧ ∃ t, pack_sequence_as mixedNest mixedCotangents = some t
        ∧ sameStructure t mixedNest = true :=
  ⟨c6_boundary_roundtrip.1 mixedNest,
   c6_boundary_roundtrip.2 mixedNest mixedCotangents rfl⟩

/-! ### Signature handling theorems -/

/-- The first-element loop finds exactly the dtype reached by the leftmost
chain of first elements, and errors otherwise. -/
theorem dtypeLoop_ok_iff : ∀ (v : SigVal) (d : DType),
    dtypeLoop v = .ok d ↔ chainDtypeSpec v = some d
  | .tensorSpec c, d => by simp [dtypeLoop, chainDtypeSpec]
  | .listVal [], d => by simp [dtypeLoop, chainDtypeSpec]
  | .listVal (x :: xs), d => by
    simp only [dtypeLoop, chainDtypeSpec]
    exact dtypeLoop_ok_iff x d
  | .dictVal es, d => by simp [dtypeLoop, chainDtypeSpec]

/-- Counterexample to C10: with an EMPTY signature, `get_node_function` does
NOT fail at construction time: the Python truthiness test `if signature:`
is false for an empty list, so `get_dtype_from_signature` is never called
and the node function is built with `input_signature = None`. -/
theorem c10_empty_signature_counterexample :
    node_fn_input_signature (some (.listVal [])) = .ok none
    ∧ get_dtype_from_signature (.listVal []) = .error .indexError :=
  ⟨rfl, rfl⟩

/-- Claim C10 (amended): `get_dtype_from_signature` itself is undefined off
the leftmost-TensorSpec domain: it raises `IndexError` on an empty signature
and `KeyError` on a dict-structured one, and returns a dtype exactly when
the leftmost chain of first elements ends at a TensorSpec.  A node function
built with a TRUTHY signature propagates such an error at construction
time; an empty (falsy) signature is skipped entirely and construction
succeeds with no input signature. -/
theorem c10_signature_domain :
    (get_dtype_from_signature (.listVal []) = .error .indexError)
    ∧ (∀ es, get_dtype_from_signature (.dictVal es) = .error .keyError)
    ∧ (∀ sig d, get_dtype_from_signature sig = .ok d ↔
        leftmostDtypeSpec sig = some d)
    ∧ (∀ s e, truthy s = true → get_dtype_from_signature s = .error e →
        node_fn_input_signature (some s) = .error e)
    ∧ (node_fn_input_signature (some (.listVal [])) = .ok none) := by
  refine ⟨rfl, fun es => rfl, fun sig d => ?_, fun s e ht he => ?_, rfl⟩
  · cases sig with
    | tensorSpec c => simp [get_dtype_from_signature, leftmostDtypeSpec]
    | listVal items =>
      cases items with
      | nil => simp [get_dtype_from_signature, leftmostDtypeSpec]
      | cons x xs =>
        simp only [get_dtype_from_signature, leftmostDtypeSpec]
        exact dtypeLoop_ok_iff x d
    | dictVal es => simp [get_dtype_from_signature, leftmostDtypeSpec]
  · simp only [node_fn_input_signature, ht, if_true, he]

/-- Witness for C10 (amended): a dict-valued signature is truthy yet has no
leftmost TensorSpec, so node-function construction propagates `KeyError`;
a nested list signature reaches its TensorSpec. -/
theorem c10_signature_domain_witness :
    node_fn_input_signature (some (.dictVal [.tensorSpec .float32]))
      = .error .keyError
    ∧ leftmostDtypeSpec (.listVal [.listVal [.tensorSpec .float32]])
      = some .float32 :=
  ⟨c10_signature_domain.2.2.2.1 (.dictVal [.tensorSpec .float32]) .keyError
     rfl rfl,
   (c10_signature_domain.2.2.1 (.listVal [.listVal [.tensorSpec .float32]])
     .float32).mp rfl⟩

/-! ### The tfp solver result shape -/

/-- Claim C5 fails on the code: `RKF45Solver`-produced `forward` does not
return the single phase point reached at `t1` with the shape of `x0` (and so
also cannot satisfy the `forward t0 t0 x0 = x0` contract): it returns the
raw `results.states` stack of the underlying integrator, whose leading axis
indexes the single requested solution time, so every leaf gains a leading
axis of length 1; the returned raw tensor also is not the solver-result
object whose `phase_point` field `backward` reads. -/
theorem c5_rkf45_returns_stacked_states (traj : ℚ → Tensor) (t0 t1 : ℚ)
    (x0 : Tensor) :
    (rkf45Forward traj t0 t1 x0).shape = 1 :: x0.shape
    ∧ (rkf45Forward traj t0 t1 x0).shape ≠ x0.shape
    ∧ rkf45Forward traj t0 t1 x0 ≠ x0 := by
  have h1 : (rkf45Forward traj t0 t1 x0).shape = 1 :: x0.shape := rfl
  refine ⟨h1, fun h => ?_, fun h => ?_⟩
  · rw [h1] at h
    have hl := congrArg List.length h
    simp only [List.length_cons] at hl
    omega
  · have hs := congrArg Tensor.shape h
    rw [h1] at hs
    have hl := congrArg List.length hs
    simp only [List.length_cons] at hl
    omega

/-- Witness for C5 at the constant trajectory of the zero field started at
the scalar `1`: `forward 0 0 x0` returns the stacked tensor of shape `[1]`,
not the scalar `x0` of shape `[]`. -/
theorem c5_rkf45_returns_stacked_states_witness :
    (rkf45Forward (fun _ => { shape := [], data := [1] }) 0 0
        { shape := [], data := [1] }).shape = [1]
    ∧ rkf45Forward (fun _ => { shape := [], data := [1] }) 0 0
        { shape := [], data := [1] }
      ≠ ({ shape := [], data := [1] } : Tensor) :=
  ⟨(c5_rkf45_returns_stacked_states (fun _ => { shape := [], data := [1] })
      0 0 { shape := [], data := [1] }).1,
   (c5_rkf45_returns_stacked_states (fun _ => { shape := [], data := [1] })
      0 0 { shape := [], data := [1] }).2.2⟩

end Node
